import Mathlib

/-!
# Verification of the spectral-subtraction denoiser (`src/app.py`)

Shallow embedding of the denoising pipeline of `app.py`.  Real-valued
quantities (spectral magnitudes, noise averages, samples) are modelled as
exact rationals `ℚ`; complex spectral values as pairs of rationals (`QC`).
The array shapes follow numpy: a magnitude matrix has one row per frequency
bin and one column per analysis frame, so `magnitude.shape[1]` is the frame
count and `mag b f` is the magnitude of bin `b` in frame `f`.
-/

/-- Complex spectral value with rational components, standing for one entry
of the STFT matrix. -/
structure QC where
  re : ℚ
  im : ℚ
deriving DecidableEq, Repr

/-- Scaling of a complex value by a real (rational) scalar, as in
`clean_magnitude * phase` (numpy broadcasts the real factor over the complex
array). -/
def QC.smul (a : ℚ) (z : QC) : QC := ⟨a * z.re, a * z.im⟩

/-- Cross product of two complex values seen as plane vectors; it vanishes
exactly when the two are collinear (same or opposite direction). -/
def QC.cross (z w : QC) : ℚ := z.re * w.im - z.im * w.re

/-- Dot product of two complex values seen as plane vectors; non-negative
when they do not point in opposite directions. -/
def QC.dot (z w : QC) : ℚ := z.re * w.re + z.im * w.im

/-! ## Constants of `app.py` (lines 48-49 and 65) -/

/-- `N_FFT = 1024` (app.py line 48). -/
def N_FFT : ℕ := 1024

/-- `HOP_LENGTH = 256` (app.py line 49). -/
def HOP_LENGTH : ℕ := 256

/-! ## Noise-profile estimation (app.py lines 60-61)

`noise_frames = magnitude[:, :int(magnitude.shape[1] * 0.1)]`
`noise_magnitude_avg = np.mean(noise_frames, axis=1, keepdims=True)`
-/

/-- Number of leading frames used for the noise estimate:
`int(magnitude.shape[1] * 0.1)` truncates toward zero, i.e. the floor
`frameCount / 10` (for frame counts in any realistic range the float product
`frameCount * 0.1` rounds to a value with the same floor). -/
def noiseFrameCount (frameCount : ℕ) : ℕ := frameCount / 10

/-- Sum of the magnitudes of the first `k` frames of bin `b` (the slice
`magnitude[:, :k]` summed along the frame axis; the out-of-range guard never
fires in the pipeline, where `k ≤ F`). -/
def firstFramesSum {B F : ℕ} (mag : Fin B → Fin F → ℚ) (k : ℕ) (b : Fin B) : ℚ :=
  Finset.sum (Finset.range k) (fun j => if h : j < F then mag b ⟨j, h⟩ else 0)

/-- Per-bin noise magnitude average over the first `int(frameCount * 0.1)`
frames (app.py lines 60-61).  When that frame count is zero numpy's mean
yields NaN; the rational embedding returns `0/0 = 0` there, and every claim
about the profile is stated only where at least one frame is averaged. -/
def noise_magnitude_avg {B F : ℕ} (mag : Fin B → Fin F → ℚ) (b : Fin B) : ℚ :=
  firstFramesSum mag (noiseFrameCount F) b / (noiseFrameCount F : ℚ)

/-- Frame count the spec claims for the noise estimate:
`k = max(1, ⌈noiseFraction × frameCount⌉)` with `noiseFraction = 0.1`.
Stated from the spec's words, to be compared with `noiseFrameCount`. -/
def specNoiseFrameCount (frameCount : ℕ) : ℕ := max 1 ((frameCount + 9) / 10)

/-- Per-bin noise average as the spec describes it (average over the first
`specNoiseFrameCount` frames).  Stated from the spec's words, to be compared
with `noise_magnitude_avg`. -/
def specNoiseAvg {B F : ℕ} (mag : Fin B → Fin F → ℚ) (b : Fin B) : ℚ :=
  firstFramesSum mag (specNoiseFrameCount F) b / (specNoiseFrameCount F : ℚ)

/-! ## Spectral subtraction (app.py lines 65 and 68)

`clean_magnitude = np.maximum(0, magnitude - noise_magnitude_avg * 1.5)`
`stft_clean = clean_magnitude * phase`
-/

/-- `np.maximum(0, magnitude - noise_magnitude_avg * 1.5)` (app.py line 65);
`noiseAvg` is broadcast across frames (numpy `keepdims=True`), and `1.5` is
the over-subtraction factor. -/
def clean_magnitude {B F : ℕ} (mag : Fin B → Fin F → ℚ) (noiseAvg : Fin B → ℚ)
    (b : Fin B) (f : Fin F) : ℚ :=
  max 0 (mag b f - noiseAvg b * (3 / 2))

/-- `stft_clean = clean_magnitude * phase` (app.py line 68): each bin of the
cleaned STFT is the clean magnitude times the original unit-phase factor
produced by `librosa.magphase`. -/
def stft_clean {B F : ℕ} (mag : Fin B → Fin F → ℚ) (noiseAvg : Fin B → ℚ)
    (phase : Fin B → Fin F → QC) (b : Fin B) (f : Fin F) : QC :=
  QC.smul (clean_magnitude mag noiseAvg b f) (phase b f)

/-! ## Framing geometry of `librosa.stft` / `librosa.istft`

`app.py` calls `librosa.stft(y, n_fft=1024, hop_length=256)` and
`librosa.istft(stft_clean, hop_length=256)` with the library defaults
`center=True` and (for `istft`) `length=None`.  These definitions embed the
library's documented length bookkeeping at exactly those call sites:
with `center=True` the signal is padded by `n_fft // 2` on each side before
framing, and `istft` without a `length` argument trims the same padding from
`n_fft + hop * (n_frames - 1)` reconstructed samples. -/

/-- Number of analysis frames of `librosa.stft` with `center=True`:
`1 + (paddedLength - n_fft) / hop` where `paddedLength = n + 2*(n_fft//2)`. -/
def librosa_stft_frames (n nFFT hop : ℕ) : ℕ :=
  1 + (n + 2 * (nFFT / 2) - nFFT) / hop

/-- Output sample count of `librosa.istft` with `center=True` and no
`length` argument: `n_fft + hop*(n_frames - 1) - 2*(n_fft//2)`. -/
def librosa_istft_length (nFFT hop nFrames : ℕ) : ℕ :=
  nFFT + hop * (nFrames - 1) - 2 * (nFFT / 2)

/-- Frame count of the spectrogram computed at app.py line 52 for a decoded
signal of `n` samples. -/
def pipeline_frame_count (n : ℕ) : ℕ := librosa_stft_frames n N_FFT HOP_LENGTH

/-- Sample count of `y_clean` (app.py line 71), the signal handed to
`sf.write` at line 78; no truncation happens between the two. -/
def pipeline_output_length (n : ℕ) : ℕ :=
  librosa_istft_length N_FFT HOP_LENGTH (pipeline_frame_count n)

/-! ## Pipeline orchestration (`ai_denoising_process`, app.py lines 28-88)

The entry point runs decode → forward transform → subtraction →
reconstruction → encode inside one `try` block; any exception from any
stage is caught at line 83 and answered by `shutil.copy(input_filepath,
denoised_filepath)` (line 87), a verbatim byte copy of the input, whose
path is returned.  The individual stages are library calls over audio
bytes, modelled here as fallible functions (`Except`), with the one piece
of stage behaviour the code itself fixes — `librosa.load(path, sr=16000)`
returns samples resampled to the requested 16000 Hz together with that
rate — made explicit in `librosa_load`. -/

/-- An encoded audio resource: the byte content of a file. -/
structure Resource where
  bytes : List ℕ
deriving DecidableEq, Repr

/-- A decoded mono signal with its sample rate, as returned by
`librosa.load`. -/
structure AudioSignal where
  samples : List ℚ
  sampleRate : ℕ
deriving DecidableEq, Repr

/-- The processing sample rate requested at app.py line 45
(`librosa.load(input_filepath, sr=16000)`). -/
def TARGET_SR : ℕ := 16000

/-- `y, sr = librosa.load(input_filepath, sr=16000)` (app.py line 45): the
library decodes and resamples to the requested rate and returns that rate;
an unreadable or unsupported resource raises.  `reader` abstracts the
decoding of the byte content into samples. -/
def librosa_load (reader : Resource → Option (List ℚ)) (r : Resource) :
    Except String AudioSignal :=
  match reader r with
  | some s => Except.ok ⟨s, TARGET_SR⟩
  | none => Except.error "DecodeError"

/-- Result of one call to `ai_denoising_process`: the byte content written
at the returned output path, the sample rate passed to `sf.write` on the
success path (`none` when the fallback copy was taken, since the copy is
not re-encoded), and whether the fallback was taken. -/
structure DenoiseOutput where
  bytes : List ℕ
  rate : Option ℕ
  fallback : Bool
deriving DecidableEq, Repr

/-- The `try` block of app.py lines 43-81: decode (line 45), forward
transform with magnitude/phase split (lines 52-55), noise estimation and
subtraction (lines 60-68), inverse transform (line 71) and encode
(line 78, `sf.write(denoised_filepath, y_clean, sr)` — note the rate
written is the `sr` returned by the decode).  `Spect` is the spectrogram
representation threaded between the transform stages. -/
def runStages {Spect : Type} (reader : Resource → Option (List ℚ))
    (forward : List ℚ → Except String Spect)
    (subtract : Spect → Except String Spect)
    (inverse : Spect → Except String (List ℚ))
    (writer : List ℚ → ℕ → Except String (List ℕ))
    (input : Resource) : Except String (List ℕ × ℕ) := do
  let sig ← librosa_load reader input
  let sp ← forward sig.samples
  let cleaned ← subtract sp
  let y ← inverse cleaned
  let out ← writer y sig.sampleRate
  pure (out, sig.sampleRate)

/-- `ai_denoising_process` (app.py lines 28-88): run the stages; on success
return the encoded output, on any exception copy the input bytes verbatim
to the fallback path and return that (lines 83-88). -/
def ai_denoising_process {Spect : Type} (reader : Resource → Option (List ℚ))
    (forward : List ℚ → Except String Spect)
    (subtract : Spect → Except String Spect)
    (inverse : Spect → Except String (List ℚ))
    (writer : List ℚ → ℕ → Except String (List ℕ))
    (input : Resource) : DenoiseOutput :=
  match runStages reader forward subtract inverse writer input with
  | Except.ok (out, sr) => ⟨out, some sr, false⟩
  | Except.error _ => ⟨input.bytes, none, true⟩

/-! ## Upload validation (`allowed_file` / `upload_file`, app.py lines 91-140)

Filenames are embedded as lists of characters.  `upload_file` rejects an
empty filename (line 110) and otherwise saves and processes the file iff
`allowed_file` accepts it (line 114; the `file` truthiness test adds
nothing beyond the emptiness check already made). -/

/-- `ALLOWED_EXTENSIONS = {'wav', 'mp3', 'flac', 'ogg'}` (app.py line 18). -/
def ALLOWED_EXTENSIONS : List (List Char) :=
  [['w', 'a', 'v'], ['m', 'p', '3'], ['f', 'l', 'a', 'c'], ['o', 'g', 'g']]

/-- `filename.rsplit('.', 1)[1]`: the characters after the last `'.'`
(only evaluated by the code when a dot is present). -/
def afterLastDot (s : List Char) : List Char :=
  (List.takeWhile (fun c => c ≠ '.') s.reverse).reverse

/-- Python's `str.lower` on a filename extension, character by character. -/
def lowerStr (s : List Char) : List Char := s.map Char.toLower

/-- `allowed_file` (app.py lines 91-94):
`'.' in filename and filename.rsplit('.', 1)[1].lower() in ALLOWED_EXTENSIONS`. -/
def allowed_file (filename : List Char) : Bool :=
  filename.contains '.' && ALLOWED_EXTENSIONS.contains (lowerStr (afterLastDot filename))

/-- The decision of `upload_file` (app.py lines 110-120): the submitted
file is saved and processed iff the filename is non-empty (line 110) and
`allowed_file` accepts it (line 114). -/
def upload_accepts (filename : List Char) : Bool :=
  (!filename.isEmpty) && allowed_file filename

/-- A concrete 1-bin, 15-frame magnitude matrix: magnitude 0 in frame 0 and
10 in frames 1-14.  With 15 frames the code averages over
`int(15 * 0.1) = 1` frame while the spec prescribes
`max(1, ceil(15 * 0.1)) = 2` frames, and the two averages differ here. -/
def mag15 : Fin 1 → Fin 15 → ℚ := fun _ f => if (f : ℕ) = 0 then 0 else 10

/-! # Theorems -/

/-- The output of the inverse transform has `hop * (n / hop)` samples:
the decoded length `n` rounded down to a multiple of the hop length. -/
theorem pipeline_output_length_eq (n : ℕ) :
    pipeline_output_length n = HOP_LENGTH * (n / HOP_LENGTH) := by
  simp [pipeline_output_length, pipeline_frame_count, librosa_istft_length,
    librosa_stft_frames, N_FFT, HOP_LENGTH]

/-- A successful `librosa.load(path, sr=16000)` reports the requested
16000 Hz sample rate. -/
theorem librosa_load_rate (reader : Resource → Option (List ℚ)) (r : Resource)
    (sig : AudioSignal) (h : librosa_load reader r = Except.ok sig) :
    sig.sampleRate = TARGET_SR := by
  unfold librosa_load at h
  cases hread : reader r with
  | some s => rw [hread] at h; cases h; rfl
  | none => rw [hread] at h; cases h

/-- C1: if any stage of the pipeline (decode, transform, subtraction,
reconstruction, encode) fails, `ai_denoising_process` catches the failure
and returns an output whose bytes are identical to the input resource's
bytes, with the fallback flag set — the caller always receives an output. -/
theorem C1_fallback_copies_input {Spect : Type}
    (reader : Resource → Option (List ℚ))
    (forward : List ℚ → Except String Spect)
    (subtract : Spect → Except String Spect)
    (inverse : Spect → Except String (List ℚ))
    (writer : List ℚ → ℕ → Except String (List ℕ))
    (input : Resource) (msg : String)
    (h : runStages reader forward subtract inverse writer input = Except.error msg) :
    ai_denoising_process reader forward subtract inverse writer input =
      ⟨input.bytes, none, true⟩ := by
  unfold ai_denoising_process
  rw [h]

/-- Witness for C1: with a decoder that fails on every resource, the
pipeline returns the input's bytes unchanged under the fallback flag. -/
theorem C1_fallback_copies_input_witness :
    @ai_denoising_process Unit (fun _ => none) (fun _ => Except.ok ())
      (fun s => Except.ok s) (fun _ => Except.ok []) (fun _ _ => Except.ok [])
      ⟨[7, 7, 7]⟩ = ⟨[7, 7, 7], none, true⟩ :=
  C1_fallback_copies_input _ _ _ _ _ ⟨[7, 7, 7]⟩ "DecodeError" rfl

/-- C2: for every frame and bin, the subtracted magnitude is
`max(0, originalMagnitude - 1.5 * noiseMagnitude[bin])`, and the cleaned
complex bin is that magnitude times the original unit-phase factor. -/
theorem C2_subtraction_formula {B F : ℕ} (mag : Fin B → Fin F → ℚ)
    (noiseAvg : Fin B → ℚ) (phase : Fin B → Fin F → QC) (b : Fin B) (f : Fin F) :
    clean_magnitude mag noiseAvg b f = max 0 (mag b f - 3 / 2 * noiseAvg b) ∧
    stft_clean mag noiseAvg phase b f =
      QC.smul (max 0 (mag b f - 3 / 2 * noiseAvg b)) (phase b f) := by
  constructor
  · rw [clean_magnitude, mul_comm]
  · rw [stft_clean, clean_magnitude, mul_comm]

/-- C6: every subtracted magnitude is non-negative, even where the scaled
noise estimate exceeds the original magnitude. -/
theorem C6_clean_magnitude_nonneg {B F : ℕ} (mag : Fin B → Fin F → ℚ)
    (noiseAvg : Fin B → ℚ) (b : Fin B) (f : Fin F) :
    0 ≤ clean_magnitude mag noiseAvg b f :=
  le_max_left 0 _

/-- C7: the subtraction stage changes only the magnitude: every cleaned bin
is a non-negative real multiple of the original unit-phase factor, hence
collinear with it (zero cross product) and never opposite to it
(non-negative dot product) — the phase is preserved. -/
theorem C7_phase_preserved {B F : ℕ} (mag : Fin B → Fin F → ℚ)
    (noiseAvg : Fin B → ℚ) (phase : Fin B → Fin F → QC) (b : Fin B) (f : Fin F) :
    stft_clean mag noiseAvg phase b f =
      QC.smul (clean_magnitude mag noiseAvg b f) (phase b f) ∧
    0 ≤ clean_magnitude mag noiseAvg b f ∧
    QC.cross (stft_clean mag noiseAvg phase b f) (phase b f) = 0 ∧
    0 ≤ QC.dot (stft_clean mag noiseAvg phase b f) (phase b f) := by
  refine ⟨rfl, le_max_left 0 _, ?_, ?_⟩
  · show clean_magnitude mag noiseAvg b f * (phase b f).re * (phase b f).im -
      clean_magnitude mag noiseAvg b f * (phase b f).im * (phase b f).re = 0
    ring
  · have hc : 0 ≤ clean_magnitude mag noiseAvg b f := le_max_left 0 _
    have hdot : QC.dot (stft_clean mag noiseAvg phase b f) (phase b f) =
        clean_magnitude mag noiseAvg b f *
          ((phase b f).re ^ 2 + (phase b f).im ^ 2) := by
      show clean_magnitude mag noiseAvg b f * (phase b f).re * (phase b f).re +
        clean_magnitude mag noiseAvg b f * (phase b f).im * (phase b f).im = _
      ring
    rw [hdot]
    exact mul_nonneg hc (by positivity)

/-- C8: with an all-zero noise profile the subtraction is the identity: the
clean magnitude equals the original magnitude and the cleaned STFT equals
the original STFT (the magnitude-times-unit-phase decomposition `D`). -/
theorem C8_zero_noise_identity {B F : ℕ} (D : Fin B → Fin F → QC)
    (mag : Fin B → Fin F → ℚ) (phase : Fin B → Fin F → QC) (b : Fin B) (f : Fin F)
    (hm : ∀ b f, 0 ≤ mag b f)
    (hD : ∀ b f, D b f = QC.smul (mag b f) (phase b f)) :
    clean_magnitude mag (fun _ => 0) b f = mag b f ∧
    stft_clean mag (fun _ => 0) phase b f = D b f := by
  have h1 : clean_magnitude mag (fun _ => 0) b f = mag b f := by
    rw [clean_magnitude]
    rw [zero_mul, sub_zero]
    exact max_eq_right (hm b f)
  refine ⟨h1, ?_⟩
  rw [stft_clean, h1, hD]

/-- Witness for C8: a concrete constant spectrogram with zero noise profile
passes through the subtraction unchanged. -/
theorem C8_zero_noise_identity_witness :
    clean_magnitude (fun _ _ : Fin 1 => (2 : ℚ)) (fun _ => 0) 0 0 = 2 ∧
    stft_clean (fun _ _ : Fin 1 => (2 : ℚ)) (fun _ => 0)
      (fun _ _ : Fin 1 => QC.mk 1 0) 0 0 = QC.mk 2 0 :=
  C8_zero_noise_identity (fun _ _ => QC.mk 2 0) (fun _ _ => 2)
    (fun _ _ => QC.mk 1 0) 0 0 (fun _ _ => by norm_num)
    (fun _ _ => by simp [QC.smul])

/-- Counterexample for C3: on a 15-frame spectrogram the code averages the
first `int(15 * 0.1) = 1` frame, not the `max(1, ceil(15 * 0.1)) = 2`
frames the claim prescribes, and on `mag15` the two averages differ
(0 versus 5). -/
theorem C3_noise_profile_cex :
    ¬ (noise_magnitude_avg mag15 0 = specNoiseAvg mag15 0) := by
  have hk1 : noiseFrameCount 15 = 1 := by norm_num [noiseFrameCount]
  have hk2 : specNoiseFrameCount 15 = 2 := by norm_num [specNoiseFrameCount]
  have h1 : noise_magnitude_avg mag15 0 = 0 := by
    rw [noise_magnitude_avg, hk1]
    norm_num [firstFramesSum, Finset.sum_range_succ, mag15]
  have h2 : specNoiseAvg mag15 0 = 5 := by
    rw [specNoiseAvg, hk2]
    norm_num [firstFramesSum, Finset.sum_range_succ, mag15]
  rw [h1, h2]
  norm_num

/-- C3 (amended): the noise profile averages the per-bin magnitudes of the
first `k = int(0.1 * frameCount)` frames (floor, not
`max(1, ceil(0.1 * frameCount))`); for `frameCount ≥ 10` at least one frame
is averaged and the result is one non-negative value per bin (given
non-negative magnitudes). -/
theorem C3_noise_profile_amended {B F : ℕ} (mag : Fin B → Fin F → ℚ) (b : Fin B)
    (hF : 10 ≤ F) (hnn : ∀ b f, 0 ≤ mag b f) :
    1 ≤ noiseFrameCount F ∧
    noise_magnitude_avg mag b =
      firstFramesSum mag (F / 10) b / ((F / 10 : ℕ) : ℚ) ∧
    0 ≤ noise_magnitude_avg mag b := by
  refine ⟨(Nat.one_le_div_iff (by norm_num)).mpr hF, rfl, ?_⟩
  apply div_nonneg
  · refine Finset.sum_nonneg fun j _ => ?_
    by_cases h : j < F
    · simp [h, hnn b]
    · simp [h]
  · exact Nat.cast_nonneg _

/-- Witness for C3 (amended): a constant 1-bin, 10-frame spectrogram. -/
theorem C3_noise_profile_amended_witness :
    1 ≤ noiseFrameCount 10 ∧
    noise_magnitude_avg (fun (_ : Fin 1) (_ : Fin 10) => (2 : ℚ)) 0 =
      firstFramesSum (fun (_ : Fin 1) (_ : Fin 10) => (2 : ℚ)) (10 / 10) 0 /
        ((10 / 10 : ℕ) : ℚ) ∧
    0 ≤ noise_magnitude_avg (fun (_ : Fin 1) (_ : Fin 10) => (2 : ℚ)) 0 :=
  @C3_noise_profile_amended 1 10 (fun _ _ => 2) 0 (by norm_num)
    (fun _ _ => by norm_num)

/-- Counterexample for C4: a decoded signal of 300 samples is reconstructed
and encoded with `256 * (300 / 256) = 256` samples — the code never
truncates the inverse-transform output back to the decoded length. -/
theorem C4_length_cex : ¬ (pipeline_output_length 300 = 300) := by decide

/-- C4 (amended): the encoded output has `hopSize * floor(n / hopSize)`
samples for a decoded signal of `n` samples — the decoded length rounded
down to a multiple of the hop size (so never longer than the input, and
equal to it only when `n` is a multiple of 256); no truncation step exists. -/
theorem C4_length_amended (n : ℕ) :
    pipeline_output_length n = HOP_LENGTH * (n / HOP_LENGTH) ∧
    pipeline_output_length n ≤ n := by
  refine ⟨pipeline_output_length_eq n, ?_⟩
  rw [pipeline_output_length_eq, mul_comm]
  exact Nat.div_mul_le_self n HOP_LENGTH

/-- Counterexample for C5: a 100-sample signal (shorter than one hop) does
yield an analysis frame, but the reconstructed output is empty — the claim
that every sub-frame-length input produces a non-empty output is false. -/
theorem C5_short_signal_cex :
    0 < 100 ∧ 100 < 1024 ∧ pipeline_frame_count 100 = 1 ∧
    ¬ (0 < pipeline_output_length 100) := by decide

/-- C5 (amended): every signal shorter than one frame still yields at least
one (zero-padded) analysis frame, so downstream stages never see an empty
spectrogram; but the reconstructed output is non-empty only when the signal
has at least `hopSize = 256` samples — shorter inputs produce an empty
(zero-sample) output file, without a crash. -/
theorem C5_short_signal_amended (n : ℕ) (h1 : 0 < n) (h2 : n < 1024) :
    1 ≤ pipeline_frame_count n ∧
    (0 < pipeline_output_length n ↔ HOP_LENGTH ≤ n) := by
  constructor
  · exact Nat.le_add_right 1 _
  · rw [pipeline_output_length_eq]
    constructor
    · intro h
      by_contra hlt
      push_neg at hlt
      rw [Nat.div_eq_of_lt hlt] at h
      simp at h
    · intro h
      exact Nat.mul_pos (by norm_num [HOP_LENGTH])
        (Nat.div_pos h (by norm_num [HOP_LENGTH]))

/-- Witness for C5 (amended): a 300-sample signal. -/
theorem C5_short_signal_amended_witness :
    1 ≤ pipeline_frame_count 300 ∧
    (0 < pipeline_output_length 300 ↔ HOP_LENGTH ≤ 300) :=
  C5_short_signal_amended 300 (by norm_num) (by norm_num)

/-- Inverting a successful `Except` bind: if `x >>= f` succeeds, `x`
succeeded with some value on which `f` succeeded. -/
theorem except_bind_ok {α β : Type} (x : Except String α) (f : α → Except String β)
    (b : β) (h : (x >>= f) = Except.ok b) :
    ∃ a, x = Except.ok a ∧ f a = Except.ok b := by
  cases x with
  | error e => exact absurd h (by simp [Bind.bind, Except.bind])
  | ok a => exact ⟨a, rfl, by simpa [Bind.bind, Except.bind] using h⟩

/-- C9: decoding requests (and `librosa.load` returns) the 16000 Hz
processing rate, and on the success path `sf.write` is handed that same
rate, so the output is written at 16 kHz regardless of the input's
original sample rate. -/
theorem C9_output_rate_16khz {Spect : Type} (reader : Resource → Option (List ℚ))
    (forward : List ℚ → Except String Spect)
    (subtract : Spect → Except String Spect)
    (inverse : Spect → Except String (List ℚ))
    (writer : List ℚ → ℕ → Except String (List ℕ))
    (input : Resource)
    (hs : (ai_denoising_process reader forward subtract inverse writer input).fallback
      = false) :
    (ai_denoising_process reader forward subtract inverse writer input).rate
      = some 16000 ∧
    ∃ sig, librosa_load reader input = Except.ok sig ∧ sig.sampleRate = 16000 := by
  cases hrun : runStages reader forward subtract inverse writer input with
  | error e => simp [ai_denoising_process, hrun] at hs
  | ok p =>
    obtain ⟨out, sr⟩ := p
    have hparts : ∃ sig, librosa_load reader input = Except.ok sig ∧
        sig.sampleRate = sr := by
      unfold runStages at hrun
      obtain ⟨sig, hload, hrun⟩ := except_bind_ok _ _ _ hrun
      obtain ⟨sp, hfwd, hrun⟩ := except_bind_ok _ _ _ hrun
      obtain ⟨sp2, hsub, hrun⟩ := except_bind_ok _ _ _ hrun
      obtain ⟨y, hinv, hrun⟩ := except_bind_ok _ _ _ hrun
      obtain ⟨o, hw, hrun⟩ := except_bind_ok _ _ _ hrun
      refine ⟨sig, hload, ?_⟩
      simp [Pure.pure, Except.pure] at hrun
      exact hrun.2
    obtain ⟨sig, hload, hsr⟩ := hparts
    have hrate : sig.sampleRate = TARGET_SR := librosa_load_rate reader input sig hload
    have h16 : sr = 16000 := by rw [← hsr, hrate]; rfl
    constructor
    · simp [ai_denoising_process, hrun, h16]
    · exact ⟨sig, hload, by rw [hrate]; rfl⟩

/-- Witness for C9: stage functions that all succeed on a concrete input. -/
theorem C9_output_rate_16khz_witness :
    (@ai_denoising_process Unit (fun _ => some []) (fun _ => Except.ok ())
      (fun s => Except.ok s) (fun _ => Except.ok []) (fun _ _ => Except.ok [0])
      ⟨[1]⟩).rate = some 16000 ∧
    ∃ sig, librosa_load (fun _ => some ([] : List ℚ)) ⟨[1]⟩ = Except.ok sig ∧
      sig.sampleRate = 16000 :=
  @C9_output_rate_16khz Unit (fun _ => some []) (fun _ => Except.ok ())
    (fun s => Except.ok s) (fun _ => Except.ok []) (fun _ _ => Except.ok [0])
    ⟨[1]⟩ rfl

/-- C10: the upload handler saves and processes a submitted file iff the
filename is non-empty, contains a dot, and the part after the last dot,
lowercased, is one of `wav`, `mp3`, `flac`, `ogg`. -/
theorem C10_upload_accept_iff (filename : List Char) :
    upload_accepts filename = true ↔
      filename ≠ [] ∧ filename.contains '.' = true ∧
        (lowerStr (afterLastDot filename) = ['w', 'a', 'v'] ∨
         lowerStr (afterLastDot filename) = ['m', 'p', '3'] ∨
         lowerStr (afterLastDot filename) = ['f', 'l', 'a', 'c'] ∨
         lowerStr (afterLastDot filename) = ['o', 'g', 'g']) := by
  simp [upload_accepts, allowed_file, ALLOWED_EXTENSIONS, and_assoc]
